import Mathlib

/-!
Shallow embedding of `src/service/session-manager.ts` (class `SessionManager`)
from the vivarium repository, together with proofs about the claims of its
specification.

Modelling conventions:
* `Date.now()` is modelled by explicit time parameters (`now`, `t1`, `t2` : Nat)
  supplied by the environment; hypotheses such as "the clock is non-decreasing"
  become explicit hypotheses relating those parameters.
* The JS `Map<string, Session>` is modelled as an association list with
  JS-`Map` semantics: `get` finds the first binding, `set` replaces an existing
  binding in place or appends, `delete` removes the binding.
* The external `PyodidePythonEnvironment` capability is opaque; its observable
  behaviour (does `init` / `terminate` / `cleanup` succeed) is a record of
  flags, and attempted environment calls are recorded as `TeardownEvent`s so
  that "both steps are attempted" style claims can be stated.
* `try { a; b } catch { log }` is embedded as control flow: `b` runs only when
  `a` did not throw; every error is absorbed (the embedding stays total).
* The JS event loop is modelled, where a claim needs it, by splitting an async
  function at its `await` points into atomic blocks and letting an explicit
  schedule interleave the blocks of several calls.
-/

/-- The external Pyodide environment capability, reduced to its observable
behaviour: an identity and whether each fallible operation succeeds.
(`initialize`/`init`, `terminate`, `release`/`cleanup` in the source). -/
structure PyEnv where
  envId : Nat
  initOk : Bool
  initErr : String
  terminateOk : Bool
  cleanupOk : Bool
deriving DecidableEq, Repr

/-- `interface Session` from session-manager.ts: id, owned environment and the
two timestamps (`createdAt`, `lastAccessedAt`, milliseconds as Nat). -/
structure Session where
  id : String
  environment : PyEnv
  createdAt : Nat
  lastAccessedAt : Nat
deriving DecidableEq, Repr

/-- Registry type: the `Map<string, Session>` field `sessions`. -/
abbrev Registry := List (String × Session)

/-- `Map.prototype.get`: first binding for the key, if any. -/
def mapGet (l : Registry) (k : String) : Option Session :=
  match l with
  | [] => none
  | p :: rest => if p.1 = k then some p.2 else mapGet rest k

/-- `Map.prototype.has`. -/
def mapHas (l : Registry) (k : String) : Bool :=
  match l with
  | [] => false
  | p :: rest => p.1 = k || mapHas rest k

/-- `Map.prototype.set`: replace the existing binding in place, else append. -/
def mapSet (l : Registry) (k : String) (v : Session) : Registry :=
  match l with
  | [] => [(k, v)]
  | p :: rest => if p.1 = k then (k, v) :: rest else p :: mapSet rest k v

/-- `Map.prototype.delete` (under the registry's unique-key invariant this is
exactly removal of the one binding). -/
def mapDelete (l : Registry) (k : String) : Registry :=
  l.filter (fun p => decide (p.1 ≠ k))

/-- State of a `SessionManager` instance: the registry, the configured idle
timeout (`sessionTimeout`, ms) and whether the cleanup interval timer is
currently installed (`cleanupInterval !== null`). -/
structure SessionManager where
  sessions : Registry
  sessionTimeout : Nat
  cleanupIntervalActive : Bool
deriving DecidableEq, Repr

/-- Constructor `new SessionManager(sessionTimeoutMinutes)`: empty registry,
timeout in ms, cleanup interval started. -/
def SessionManager.mk0 (sessionTimeoutMinutes : Nat) : SessionManager :=
  { sessions := []
    sessionTimeout := sessionTimeoutMinutes * 60 * 1000
    cleanupIntervalActive := true }

/-- `stopCleanupInterval()`: clears the timer and nulls the handle. -/
def stopCleanupInterval (m : SessionManager) : SessionManager :=
  { m with cleanupIntervalActive := false }

/-- Observable record of the environment calls a teardown attempted. -/
inductive TeardownEvent where
  | terminateCall (sid : String)
  | cleanupCall (sid : String)
deriving DecidableEq, Repr

/-- `createSession(sessionId)`: fails if the id is present; otherwise
constructs an environment (`env`, supplied by the environment model) and
awaits `env.init()` — on failure the thrown error propagates and the registry
is untouched; on success a session with `createdAt := t1` and
`lastAccessedAt := t2` (two successive `Date.now()` reads) is inserted.
Returns the updated manager state and the result the caller observes. -/
def createSession (m : SessionManager) (sid : String) (env : PyEnv)
    (t1 t2 : Nat) : SessionManager × Except String Session :=
  if mapHas m.sessions sid then
    (m, .error ("Session with id " ++ sid ++ " already exists"))
  else if env.initOk then
    let s : Session :=
      { id := sid, environment := env, createdAt := t1, lastAccessedAt := t2 }
    ({ m with sessions := mapSet m.sessions sid s }, .ok s)
  else
    (m, .error env.initErr)

/-- `getSession(sessionId)`: on hit, refresh `lastAccessedAt` to `now`
(one `Date.now()` read) and return the session; on miss return null. -/
def getSession (m : SessionManager) (sid : String) (now : Nat) :
    SessionManager × Option Session :=
  match mapGet m.sessions sid with
  | some s =>
      let s2 := { s with lastAccessedAt := now }
      ({ m with sessions := mapSet m.sessions sid s2 }, some s2)
  | none => (m, none)

/-- `getOrCreateSession(sessionId)`: try `getSession`, else `createSession`
(this is the sequential, single-caller semantics; the interleaved semantics
is modelled separately by `raceStep`). -/
def getOrCreateSession (m : SessionManager) (sid : String) (env : PyEnv)
    (now t1 t2 : Nat) : SessionManager × Except String Session :=
  match getSession m sid now with
  | (m2, some s) => (m2, .ok s)
  | (m2, none) => createSession m2 sid env t1 t2

/-- The environment calls attempted by the `try { terminate; cleanup } catch`
block of `removeSession`: `terminate` is always called; `cleanup` is reached
only when `terminate` did not throw (a thrown error jumps to the catch);
cleanup's own failure is also caught. -/
def teardownEvents (sid : String) (e : PyEnv) : List TeardownEvent :=
  if e.terminateOk then
    [.terminateCall sid, .cleanupCall sid]
  else
    [.terminateCall sid]

/-- `removeSession(sessionId)`: absent id returns false with no effect;
otherwise attempt teardown (errors caught and logged, never rethrown), then
delete the registry entry and return true. -/
def removeSession (m : SessionManager) (sid : String) :
    SessionManager × Bool × List TeardownEvent :=
  match mapGet m.sessions sid with
  | none => (m, false, [])
  | some s =>
      ({ m with sessions := mapDelete m.sessions sid }, true,
        teardownEvents sid s.environment)

/-- `isSessionExpired(session)`: `now - lastAccessedAt >= sessionTimeout`,
computed over the integers as in JS (a negative idle duration never expires
unless the timeout is 0 or negative; the timeout here is a Nat). -/
def isSessionExpired (timeout : Nat) (now : Nat) (s : Session) : Bool :=
  decide ((timeout : Int) ≤ (now : Int) - (s.lastAccessedAt : Int))

/-- The `for (const sessionId of expiredSessions) await removeSession(...)`
loop (also the loop in `shutdown`): remove each id in turn, collecting the
teardown events in order. -/
def removeAll (m : SessionManager) : List String →
    SessionManager × List TeardownEvent
  | [] => (m, [])
  | sid :: rest =>
      let r1 := removeSession m sid
      let r2 := removeAll r1.1 rest
      (r2.1, r1.2.2 ++ r2.2)

/-- `cleanupExpiredSessions()`: collect the ids of expired sessions, remove
each, and return the number collected (the source returns
`expiredSessions.length`). All expiry checks happen in the synchronous
selection loop, modelled with the single reading `now`. -/
def cleanupExpiredSessions (m : SessionManager) (now : Nat) :
    SessionManager × Nat × List TeardownEvent :=
  let expired :=
    (m.sessions.filter (fun p => isSessionExpired m.sessionTimeout now p.2)).map
      (fun p => p.1)
  let r := removeAll m expired
  (r.1, expired.length, r.2)

/-- `manualCleanup()` simply forwards to `cleanupExpiredSessions`. -/
def manualCleanup (m : SessionManager) (now : Nat) :
    SessionManager × Nat × List TeardownEvent :=
  cleanupExpiredSessions m now

/-- One firing of the interval timer installed by `startCleanupInterval`:
runs `cleanupExpiredSessions` if the timer is installed, else nothing. -/
def timerTick (m : SessionManager) (now : Nat) :
    SessionManager × Nat × List TeardownEvent :=
  if m.cleanupIntervalActive then cleanupExpiredSessions m now else (m, 0, [])

/-- `getActiveSessionCount()`. -/
def getActiveSessionCount (m : SessionManager) : Nat :=
  m.sessions.length

/-- `shutdown()`: stop the cleanup interval, then remove every session id. -/
def shutdown (m : SessionManager) : SessionManager × List TeardownEvent :=
  let m1 := stopCleanupInterval m
  removeAll m1 (m1.sessions.map (fun p => p.1))

/-- The teardown events emitted when every entry of `l` is removed in
order (one `removeSession` per entry, as in `shutdown`). -/
def teardownEventsAll (l : Registry) : List TeardownEvent :=
  match l with
  | [] => []
  | p :: rest => teardownEvents p.1 p.2.environment ++ teardownEventsAll rest

/-!
Interleaved semantics of `getOrCreateSession`.

`getOrCreateSession` / `createSession` run synchronously from entry up to
`await environment.init()` (the existence check in `getOrCreateSession`, the
duplicate check in `createSession`, and the environment construction are all
in that synchronous prefix), then suspend; the remainder (building the
session record with two `Date.now()` reads, the `Map.set`, the return) is a
second atomic block.  A scheduler interleaves these blocks across callers.
The clock hands out strictly increasing readings (one per `Date.now()`),
a particular non-decreasing clock.
-/

/-- Program counter of one in-flight `getOrCreateSession(sid)` call:
not yet started / suspended at `await environment.init()` holding its freshly
constructed environment / returned with a result. -/
inductive GocPC where
  | start
  | initPending (env : PyEnv)
  | finished (r : Except String Session)
deriving Repr

/-- System state for the interleaving model: shared manager, the program
counters of the concurrent callers, how many environment constructions
(`new PyodidePythonEnvironment()` + `init()`) have happened, and the next
clock reading. -/
structure RaceSys where
  mgr : SessionManager
  pcs : List GocPC
  initCalls : Nat
  clock : Nat
deriving Repr

/-- Run the next atomic block of caller `tid` of `getOrCreateSession sid`.
Block 1 (from `GocPC.start`): `getSession` — on hit, refresh the timestamp
(one clock read) and finish; on miss fall into `createSession`, whose
duplicate check re-reads the same unchanged registry, then construct a fresh
environment, start `init()` and suspend.  Block 2 (from `initPending`):
`init()` resolved — build the session (two clock reads), `Map.set`, finish. -/
def raceStep (sid : String) (s : RaceSys) (tid : Nat) : RaceSys :=
  match s.pcs.get? tid with
  | some GocPC.start =>
      match getSession s.mgr sid s.clock with
      | (m2, some sess) =>
          { s with mgr := m2, clock := s.clock + 1,
                   pcs := s.pcs.set tid (GocPC.finished (.ok sess)) }
      | (_, none) =>
          if mapHas s.mgr.sessions sid then
            { s with pcs := s.pcs.set tid (GocPC.finished (.error
                ("Session with id " ++ sid ++ " already exists"))) }
          else
            let env : PyEnv :=
              { envId := s.initCalls, initOk := true, initErr := "",
                terminateOk := true, cleanupOk := true }
            { s with initCalls := s.initCalls + 1,
                     pcs := s.pcs.set tid (GocPC.initPending env) }
  | some (GocPC.initPending env) =>
      let sess : Session :=
        { id := sid, environment := env,
          createdAt := s.clock, lastAccessedAt := s.clock + 1 }
      { s with
          mgr := { s.mgr with sessions := mapSet s.mgr.sessions sid sess },
          clock := s.clock + 2,
          pcs := s.pcs.set tid (GocPC.finished (.ok sess)) }
  | _ => s

/-- Two callers of `getOrCreateSession sid` against a fresh manager, run
under the given schedule (list of thread ids). -/
def raceRun (sid : String) (sched : List Nat) : RaceSys :=
  sched.foldl (raceStep sid)
    { mgr := SessionManager.mk0 10, pcs := [GocPC.start, GocPC.start],
      initCalls := 0, clock := 0 }

/-- The `createdAt` of the session caller `tid` received, if it has finished
successfully. -/
def RaceSys.resultCreatedAt (s : RaceSys) (tid : Nat) : Option Nat :=
  match s.pcs.get? tid with
  | some (GocPC.finished (.ok sess)) => some sess.createdAt
  | _ => none

/-- The environment id of the session caller `tid` received, if any. -/
def RaceSys.resultEnvId (s : RaceSys) (tid : Nat) : Option Nat :=
  match s.pcs.get? tid with
  | some (GocPC.finished (.ok sess)) => some sess.environment.envId
  | _ => none

/-!
Phased semantics of `removeSession`: the synchronous prefix does the lookup
and starts `await terminate()`; when `terminate` resolves, `await cleanup()`
starts (or, when `terminate` rejected, the catch block runs and the
synchronous remainder deletes the entry and returns); when `cleanup`
settles, the remainder deletes the entry and returns.  The registry is not
touched until the final block.
-/

/-- Program counter of one in-flight `removeSession(sid)` call. -/
inductive RemovePC where
  | start
  | terminating (s : Session)
  | cleaning (s : Session)
  | finished (removed : Bool)
deriving DecidableEq, Repr

/-- One atomic block of `removeSession sid` from program counter `pc`. -/
def removeStep (m : SessionManager) (pc : RemovePC) (sid : String) :
    SessionManager × RemovePC :=
  match pc with
  | .start =>
      match mapGet m.sessions sid with
      | none => (m, .finished false)
      | some s => (m, .terminating s)
  | .terminating s =>
      if s.environment.terminateOk then (m, .cleaning s)
      else ({ m with sessions := mapDelete m.sessions sid }, .finished true)
  | .cleaning _ =>
      ({ m with sessions := mapDelete m.sessions sid }, .finished true)
  | .finished r => (m, .finished r)

/-- `removeSession` run through all of its blocks (three blocks always reach
`finished`; the `finished` state is absorbing). -/
def runRemove (m : SessionManager) (sid : String) : SessionManager × RemovePC :=
  let r1 := removeStep m RemovePC.start sid
  let r2 := removeStep r1.1 r1.2 sid
  removeStep r2.1 r2.2 sid

/-! Lemmas about the registry map operations. -/

/-! Concrete demonstration objects used by counterexamples and witnesses. -/

/-- Demo environment whose operations all succeed. -/
def envOkDemo : PyEnv :=
  { envId := 7, initOk := true, initErr := "", terminateOk := true,
    cleanupOk := true }

/-- Demo environment whose `terminate` throws (`cleanup` would succeed). -/
def envTermFailDemo : PyEnv :=
  { envId := 8, initOk := true, initErr := "", terminateOk := false,
    cleanupOk := true }

/-- Demo environment whose `init` throws. -/
def envInitFailDemo : PyEnv :=
  { envId := 9, initOk := false, initErr := "pyodide boot failure",
    terminateOk := true, cleanupOk := true }

/-- Demo environment whose `terminate` and `cleanup` both throw. -/
def envAllFailDemo : PyEnv :=
  { envId := 3, initOk := true, initErr := "", terminateOk := false,
    cleanupOk := false }

/-- Demo session owning a fully working environment. -/
def sessOk1 : Session :=
  { id := "s1", environment := envOkDemo, createdAt := 0, lastAccessedAt := 0 }

/-- Demo session whose environment's `terminate` throws. -/
def sessTermFail : Session :=
  { id := "s1", environment := envTermFailDemo, createdAt := 0,
    lastAccessedAt := 0 }

/-- Demo session whose environment's `terminate` and `cleanup` both throw. -/
def sessAllFail : Session :=
  { id := "s2", environment := envAllFailDemo, createdAt := 0,
    lastAccessedAt := 0 }

/-- Demo manager holding `sessOk1` under key "s1". -/
def mgrOkS1 : SessionManager :=
  { sessions := [("s1", sessOk1)], sessionTimeout := 600000,
    cleanupIntervalActive := true }

/-- Demo manager holding `sessTermFail` under key "s1". -/
def mgrTermFail : SessionManager :=
  { sessions := [("s1", sessTermFail)], sessionTimeout := 600000,
    cleanupIntervalActive := true }

/-- Demo manager holding `sessAllFail` under key "s2". -/
def mgrAllFail : SessionManager :=
  { sessions := [("s2", sessAllFail)], sessionTimeout := 60000,
    cleanupIntervalActive := true }

/-- Invariant claimed implicitly by the spec: a session's creation time never
exceeds its last-access time. -/
abbrev sessionOk (s : Session) : Prop := s.createdAt ≤ s.lastAccessedAt

/-- The `sessionOk` invariant over every session stored in a registry. -/
abbrev registryOk (l : Registry) : Prop := ∀ p ∈ l, sessionOk p.2

/-- Projection: `createdAt` of a creation result, when creation succeeded. -/
def exceptCreatedAt : Except String Session → Option Nat
  | .ok s => some s.createdAt
  | .error _ => none

/-- Projection: `lastAccessedAt` of a creation result, when it succeeded. -/
def exceptLastAccessedAt : Except String Session → Option Nat
  | .ok s => some s.lastAccessedAt
  | .error _ => none

/-- One `createSession` on a fresh manager under a non-decreasing clock whose
two `Date.now()` reads (lines 58 and 59 of the source) return 0 then 1. -/
def c10CreateRun : SessionManager × Except String Session :=
  createSession (SessionManager.mk0 10) "s1" envOkDemo 0 1

/-- Demo session that has been idle since time 0. -/
def sessIdleLong : Session :=
  { id := "old", environment := envOkDemo, createdAt := 0,
    lastAccessedAt := 0 }

/-- Demo session last accessed at time 65000. -/
def sessIdleShort : Session :=
  { id := "new", environment := envOkDemo, createdAt := 0,
    lastAccessedAt := 65000 }

/-- Demo manager with one expired and one fresh session at clock 70000
under a 60000ms timeout. -/
def mgrSweepDemo : SessionManager :=
  { sessions := [("old", sessIdleLong), ("new", sessIdleShort)],
    sessionTimeout := 60000, cleanupIntervalActive := true }

theorem mapGet_mapSet_self (l : Registry) (k : String) (v : Session) :
    mapGet (mapSet l k v) k = some v := by
  induction l with
  | nil => simp [mapSet, mapGet]
  | cons p rest ih =>
      by_cases h : p.1 = k
      · simp [mapSet, h, mapGet]
      · simp [mapSet, h, mapGet, ih]

theorem mapGet_mapSet_ne (l : Registry) (k k' : String) (v : Session)
    (h : k' ≠ k) : mapGet (mapSet l k v) k' = mapGet l k' := by
  have hkk : ¬ (k = k') := fun hh => h hh.symm
  induction l with
  | nil => simp [mapSet, mapGet, hkk]
  | cons p rest ih =>
      by_cases hp : p.1 = k
      · simp [mapSet, mapGet, hp, hkk]
      · simp only [mapSet, if_neg hp, mapGet]
        rw [ih]

theorem mapHas_eq_isSome (l : Registry) (k : String) :
    mapHas l k = (mapGet l k).isSome := by
  induction l with
  | nil => simp [mapHas, mapGet]
  | cons p rest ih =>
      by_cases h : p.1 = k
      · simp [mapHas, h, mapGet]
      · simp [mapHas, h, mapGet, ih]

theorem mapGet_none_of_not_mem_keys (l : Registry) (k : String)
    (h : k ∉ l.map Prod.fst) : mapGet l k = none := by
  induction l with
  | nil => rfl
  | cons p rest ih =>
      simp only [List.map_cons, List.mem_cons, not_or] at h
      have hp : ¬ p.1 = k := fun hh => h.1 hh.symm
      simp only [mapGet, if_neg hp]
      exact ih h.2

theorem mapGet_isSome_of_mem (l : Registry) (p : String × Session)
    (hp : p ∈ l) : (mapGet l p.1).isSome := by
  induction l with
  | nil => simp at hp
  | cons q rest ih =>
      rcases List.mem_cons.mp hp with h | h
      · subst h; simp [mapGet]
      · by_cases hq : q.1 = p.1
        · simp [mapGet, hq]
        · simp [mapGet, hq, ih h]

theorem mapGet_mem (l : Registry) (k : String) (v : Session)
    (h : mapGet l k = some v) : (k, v) ∈ l := by
  induction l with
  | nil => simp [mapGet] at h
  | cons p rest ih =>
      by_cases hp : p.1 = k
      · have hv : p.2 = v := by
          have h2 := h
          simp only [mapGet, if_pos hp] at h2
          exact Option.some.inj h2
        have hpv : (k, v) = p := by
          calc (k, v) = (p.1, p.2) := by rw [hp, hv]
          _ = p := rfl
        rw [hpv]
        exact List.mem_cons_self p rest
      · simp only [mapGet, if_neg hp] at h
        exact List.mem_cons_of_mem _ (ih h)

theorem mapDelete_eq_filter (l : Registry) (k : String) :
    mapDelete l k = l.filter (fun p => decide (p.1 ≠ k)) := rfl

theorem mapDelete_of_get_none (l : Registry) (k : String)
    (h : mapGet l k = none) : mapDelete l k = l := by
  apply List.filter_eq_self.mpr
  intro p hp
  have := mapGet_isSome_of_mem l p hp
  by_cases hk : p.1 = k
  · rw [hk, h] at this; simp at this
  · simpa using hk

theorem keys_filter_subset (l : Registry) (q : String × Session → Bool) :
    ((l.filter q).map Prod.fst) ⊆ l.map Prod.fst :=
  ((List.filter_sublist l).map Prod.fst).subset

theorem mapGet_filter (l : Registry) (k : String) (v : Session)
    (q : String × Session → Bool)
    (hnd : (l.map Prod.fst).Nodup) (h : mapGet l k = some v) :
    mapGet (l.filter q) k = if q (k, v) then some v else none := by
  induction l with
  | nil => simp [mapGet] at h
  | cons p rest ih =>
      have hnd2 : (p.1 :: rest.map Prod.fst).Nodup := by
        simpa only [List.map_cons] using hnd
      have hhead : p.1 ∉ rest.map Prod.fst := (List.nodup_cons.mp hnd2).1
      have hnd' : (rest.map Prod.fst).Nodup := (List.nodup_cons.mp hnd2).2
      by_cases hp : p.1 = k
      · have hv : p.2 = v := by
          have h2 := h
          simp only [mapGet, if_pos hp] at h2
          exact Option.some.inj h2
        have hknotin : k ∉ rest.map Prod.fst := hp ▸ hhead
        have hpk : p = (k, v) := by
          calc p = (p.1, p.2) := rfl
          _ = (k, v) := by rw [hp, hv]
        subst hpk
        by_cases hq : q (k, v)
        · rw [List.filter_cons_of_pos hq]
          simp [mapGet, hq]
        · rw [List.filter_cons_of_neg hq]
          rw [mapGet_none_of_not_mem_keys _ _
            (fun hc => hknotin (keys_filter_subset rest q hc))]
          simp [hq]
      · have h' : mapGet rest k = some v := by
          have h2 := h
          simp only [mapGet, if_neg hp] at h2
          exact h2
        by_cases hq : q p
        · rw [List.filter_cons_of_pos hq]
          simp only [mapGet, if_neg hp]
          exact ih hnd' h'
        · rw [List.filter_cons_of_neg hq]
          exact ih hnd' h'

theorem removeAll_state (ids : List String) (m : SessionManager) :
    (removeAll m ids).1 =
      { m with sessions := m.sessions.filter (fun p => decide (p.1 ∉ ids)) } := by
  induction ids generalizing m with
  | nil =>
      have hf : (fun p : String × Session => decide (p.1 ∉ ([] : List String))) =
          fun _ => true := by
        funext p; simp
      simp only [removeAll, hf, List.filter_true]
  | cons sid rest ih =>
      cases hg : mapGet m.sessions sid with
      | none =>
          have hrem : removeSession m sid = (m, false, []) := by
            simp [removeSession, hg]
          have hfc : m.sessions.filter (fun p => decide (p.1 ∉ sid :: rest)) =
              m.sessions.filter (fun p => decide (p.1 ∉ rest)) := by
            apply List.filter_congr
            intro p hp
            have hpk : ¬ p.1 = sid := by
              intro hh
              have hs := mapGet_isSome_of_mem m.sessions p hp
              rw [hh, hg] at hs
              simp at hs
            simp [List.mem_cons, hpk]
          rw [hfc]
          simp only [removeAll, hrem]
          exact ih m
      | some s =>
          simp only [removeAll, removeSession, hg]
          rw [ih]
          congr 1
          rw [mapDelete_eq_filter, List.filter_filter]
          apply List.filter_congr
          intro p hp
          simp [List.mem_cons, not_or, Bool.and_comm]

theorem removeSession_head (p : String × Session) (rest : Registry)
    (timeout : Nat) (act : Bool) (hhead : p.1 ∉ rest.map Prod.fst) :
    removeSession
      { sessions := p :: rest, sessionTimeout := timeout,
        cleanupIntervalActive := act } p.1 =
    ({ sessions := rest, sessionTimeout := timeout,
       cleanupIntervalActive := act }, true,
      teardownEvents p.1 p.2.environment) := by
  have hget : mapGet (p :: rest) p.1 = some p.2 := by
    simp [mapGet]
  have hdel : mapDelete (p :: rest) p.1 = rest := by
    rw [mapDelete_eq_filter, List.filter_cons_of_neg (by simp)]
    exact mapDelete_of_get_none rest p.1
      (mapGet_none_of_not_mem_keys rest p.1 hhead)
  simp [removeSession, hget, hdel]

theorem removeAll_keys_events (l : Registry) (timeout : Nat) (act : Bool)
    (hnd : (l.map Prod.fst).Nodup) :
    (removeAll
      { sessions := l, sessionTimeout := timeout,
        cleanupIntervalActive := act } (l.map Prod.fst)).2 =
      teardownEventsAll l := by
  induction l with
  | nil => rfl
  | cons p rest ih =>
      have hnd2 : (p.1 :: rest.map Prod.fst).Nodup := by
        simpa only [List.map_cons] using hnd
      have hhead : p.1 ∉ rest.map Prod.fst := (List.nodup_cons.mp hnd2).1
      have hnd' := (List.nodup_cons.mp hnd2).2
      simp only [List.map_cons, removeAll,
        removeSession_head p rest timeout act hhead, teardownEventsAll]
      rw [ih hnd']

theorem mem_teardownEventsAll_terminate (l : Registry) (p : String × Session)
    (hp : p ∈ l) :
    TeardownEvent.terminateCall p.1 ∈ teardownEventsAll l := by
  induction l with
  | nil => simp at hp
  | cons q rest ih =>
      rcases List.mem_cons.mp hp with h | h
      · subst h
        apply List.mem_append_left
        by_cases hok : p.2.environment.terminateOk
        · simp [teardownEvents, hok]
        · simp [teardownEvents, hok]
      · exact List.mem_append_right _ (ih h)

theorem mem_teardownEventsAll_cleanup (l : Registry) (p : String × Session)
    (hp : p ∈ l) (hok : p.2.environment.terminateOk = true) :
    TeardownEvent.cleanupCall p.1 ∈ teardownEventsAll l := by
  induction l with
  | nil => simp at hp
  | cons q rest ih =>
      rcases List.mem_cons.mp hp with h | h
      · subst h
        apply List.mem_append_left
        simp [teardownEvents, hok]
      · exact List.mem_append_right _ (ih h)

theorem mem_mapSet (l : Registry) (k : String) (v : Session)
    (p : String × Session) (hp : p ∈ mapSet l k v) : p ∈ l ∨ p = (k, v) := by
  induction l with
  | nil =>
      right
      simpa [mapSet] using hp
  | cons q rest ih =>
      by_cases hq : q.1 = k
      · simp only [mapSet, if_pos hq] at hp
        rcases List.mem_cons.mp hp with h | h
        · right; exact h
        · left; exact List.mem_cons_of_mem _ h
      · simp only [mapSet, if_neg hq] at hp
        rcases List.mem_cons.mp hp with h | h
        · left; rw [h]; exact List.mem_cons_self q rest
        · rcases ih h with h2 | h2
          · left; exact List.mem_cons_of_mem _ h2
          · right; exact h2

theorem registryOk_filter (l : Registry) (q : String × Session → Bool)
    (h : registryOk l) : registryOk (l.filter q) :=
  fun p hp => h p (List.mem_filter.mp hp).1

/-!  Claim theorems.  -/

/-- Claim C1 (code bug demonstration): `getOrCreateSession` is a naive
check-then-create — under the schedule where two concurrent callers for the
absent id "s1" both run their synchronous prefix (existence check +
environment construction + `init()` call) before either `init` resolves,
two environment constructions occur (`initCalls = 2`), and the callers
receive sessions with different `createdAt` built from different
environments, contradicting "exactly one initialize call" and "all callers
receive the identical resulting Session". -/
theorem c1_race_two_initializations :
    (raceRun "s1" [0, 1, 0, 1]).initCalls = 2 ∧
    (raceRun "s1" [0, 1, 0, 1]).resultCreatedAt 0 = some 0 ∧
    (raceRun "s1" [0, 1, 0, 1]).resultCreatedAt 1 = some 2 ∧
    (raceRun "s1" [0, 1, 0, 1]).resultEnvId 0 = some 0 ∧
    (raceRun "s1" [0, 1, 0, 1]).resultEnvId 1 = some 1 := by
  exact ⟨rfl, rfl, rfl, rfl, rfl⟩

/-- Claim C2 (counterexample): for the session "s1" whose environment's
`terminate` throws, `removeSession` attempts `terminate` but never attempts
`cleanup` — the single `try { terminate; cleanup } catch` block skips
`cleanup` when `terminate` throws — refuting "a failure of terminate does
not prevent the release/cleanup call from being attempted". -/
theorem c2_counterexample_terminate_failure_skips_cleanup :
    (removeSession mgrTermFail "s1").2.1 = true ∧
    TeardownEvent.terminateCall "s1" ∈ (removeSession mgrTermFail "s1").2.2 ∧
    TeardownEvent.cleanupCall "s1" ∉ (removeSession mgrTermFail "s1").2.2 := by
  exact ⟨rfl, by decide, by decide⟩

/-- Claim C2 (amended): teardown always attempts `terminate`; `cleanup` is
attempted exactly when `terminate` succeeded (its own failure is likewise
absorbed); either way the failure is caught and the removal proceeds
(entry deleted, `true` returned). -/
theorem c2_teardown_amended (m : SessionManager) (sid : String) (s : Session)
    (h : mapGet m.sessions sid = some s) :
    TeardownEvent.terminateCall sid ∈ (removeSession m sid).2.2 ∧
    ((TeardownEvent.cleanupCall sid ∈ (removeSession m sid).2.2) ↔
      s.environment.terminateOk = true) ∧
    (removeSession m sid).2.1 = true ∧
    (removeSession m sid).1.sessions = mapDelete m.sessions sid := by
  simp only [removeSession, h]
  refine ⟨?_, ?_, by trivial, by trivial⟩
  · by_cases hok : s.environment.terminateOk <;> simp [teardownEvents, hok]
  · by_cases hok : s.environment.terminateOk <;> simp [teardownEvents, hok]

/-- Claim C2 (witness): the amended statement evaluated on `mgrTermFail`. -/
theorem c2_teardown_amended_witness :
    TeardownEvent.terminateCall "s1" ∈ (removeSession mgrTermFail "s1").2.2 ∧
    ((TeardownEvent.cleanupCall "s1" ∈ (removeSession mgrTermFail "s1").2.2) ↔
      sessTermFail.environment.terminateOk = true) ∧
    (removeSession mgrTermFail "s1").2.1 = true ∧
    (removeSession mgrTermFail "s1").1.sessions =
      mapDelete mgrTermFail.sessions "s1" :=
  c2_teardown_amended mgrTermFail "s1" sessTermFail (by decide)

/-- Claim C3 (counterexample): while the teardown of "s1" is in flight
(`removeSession` has performed its lookup and suspended at
`await terminate()`), the registry is unchanged and a lookup for "s1" still
returns the session (refreshing its timestamp) — refuting "a lookup for that
id performed while teardown is in flight returns absent". -/
theorem c3_counterexample_visible_during_teardown :
    (removeStep mgrOkS1 RemovePC.start "s1").2 = RemovePC.terminating sessOk1 ∧
    (removeStep mgrOkS1 RemovePC.start "s1").1 = mgrOkS1 ∧
    (getSession (removeStep mgrOkS1 RemovePC.start "s1").1 "s1" 5).2 =
      some { sessOk1 with lastAccessedAt := 5 } := by
  exact ⟨by decide, by decide, rfl⟩

/-- Claim C3 (amended): the registry entry is deleted only in the final
synchronous block of `removeSession`, after teardown has completed; while
teardown is in flight the session is still visible to `getSession`; once all
blocks have run, the entry is gone and the result agrees with the atomic
model `removeSession`. -/
theorem c3_removal_after_teardown (m : SessionManager) (sid : String)
    (s : Session) (now : Nat) (h : mapGet m.sessions sid = some s) :
    removeStep m RemovePC.start sid = (m, RemovePC.terminating s) ∧
    (getSession m sid now).2 = some { s with lastAccessedAt := now } ∧
    (runRemove m sid).2 = RemovePC.finished true ∧
    (runRemove m sid).1.sessions = mapDelete m.sessions sid ∧
    (runRemove m sid).1 = (removeSession m sid).1 ∧
    (removeSession m sid).2.1 = true := by
  have hrun : runRemove m sid =
      ({ m with sessions := mapDelete m.sessions sid },
        RemovePC.finished true) := by
    by_cases hok : s.environment.terminateOk <;>
      simp [runRemove, removeStep, h, hok]
  refine ⟨by simp [removeStep, h], by simp [getSession, h], ?_, ?_, ?_, ?_⟩
  · rw [hrun]
  · rw [hrun]
  · rw [hrun]; simp [removeSession, h]
  · simp [removeSession, h]

/-- Claim C3 (witness): the amended statement evaluated on `mgrOkS1`. -/
theorem c3_removal_after_teardown_witness :
    removeStep mgrOkS1 RemovePC.start "s1" =
      (mgrOkS1, RemovePC.terminating sessOk1) ∧
    (getSession mgrOkS1 "s1" 5).2 = some { sessOk1 with lastAccessedAt := 5 } ∧
    (runRemove mgrOkS1 "s1").2 = RemovePC.finished true ∧
    (runRemove mgrOkS1 "s1").1.sessions = mapDelete mgrOkS1.sessions "s1" ∧
    (runRemove mgrOkS1 "s1").1 = (removeSession mgrOkS1 "s1").1 ∧
    (removeSession mgrOkS1 "s1").2.1 = true :=
  c3_removal_after_teardown mgrOkS1 "s1" sessOk1 5 (by decide)

/-- Claim C9: `removeSession` on an id absent from the registry returns
false, raises no error (the embedding is total on this branch by the source's
early return) and leaves the whole manager state — registry included —
unchanged. -/
theorem c9_remove_absent (m : SessionManager) (sid : String)
    (h : mapGet m.sessions sid = none) :
    removeSession m sid = (m, false, []) := by
  simp [removeSession, h]

/-- Claim C9 (witness): removing "missing" from a fresh manager. -/
theorem c9_remove_absent_witness :
    removeSession (SessionManager.mk0 10) "missing" =
      (SessionManager.mk0 10, false, []) :=
  c9_remove_absent (SessionManager.mk0 10) "missing" (by decide)

/-- Claim C4: when the environment's `init` fails during creation of an
absent id, the thrown error is surfaced unchanged to the caller of
`getOrCreateSession`, the manager state — registry included — is untouched
(no partial session is visible), and a later `getOrCreateSession` for the
same id with a working environment retries creation from scratch and
succeeds. -/
theorem c4_creation_failure_surfaced (m : SessionManager) (sid : String)
    (env env2 : PyEnv) (now t1 t2 now2 u1 u2 : Nat)
    (habs : mapGet m.sessions sid = none) (hfail : env.initOk = false)
    (hok : env2.initOk = true) :
    getOrCreateSession m sid env now t1 t2 = (m, .error env.initErr) ∧
    mapGet ((getOrCreateSession m sid env now t1 t2).1).sessions sid = none ∧
    (getOrCreateSession m sid env2 now2 u1 u2).2 =
      .ok { id := sid, environment := env2, createdAt := u1,
            lastAccessedAt := u2 } ∧
    mapGet ((getOrCreateSession m sid env2 now2 u1 u2).1).sessions sid =
      some { id := sid, environment := env2, createdAt := u1,
             lastAccessedAt := u2 } := by
  have hhas : mapHas m.sessions sid = false := by
    rw [mapHas_eq_isSome, habs]
    rfl
  have hmain : getOrCreateSession m sid env now t1 t2 = (m, .error env.initErr) := by
    simp [getOrCreateSession, getSession, habs, createSession, hhas, hfail]
  have hretry : getOrCreateSession m sid env2 now2 u1 u2 =
      ({ m with sessions := mapSet m.sessions sid { id := sid, environment := env2, createdAt := u1, lastAccessedAt := u2 } },
        .ok { id := sid, environment := env2, createdAt := u1,
              lastAccessedAt := u2 }) := by
    simp [getOrCreateSession, getSession, habs, createSession, hhas, hok]
  refine ⟨hmain, ?_, ?_, ?_⟩
  · rw [hmain]
    exact habs
  · rw [hretry]
  · rw [hretry]
    exact mapGet_mapSet_self m.sessions sid _

/-- Claim C4 (witness): init failure for "bad" on a fresh manager, then a
successful retry. -/
theorem c4_creation_failure_surfaced_witness :
    getOrCreateSession (SessionManager.mk0 10) "bad" envInitFailDemo 0 1 2 =
      (SessionManager.mk0 10, .error envInitFailDemo.initErr) ∧
    mapGet ((getOrCreateSession (SessionManager.mk0 10) "bad" envInitFailDemo
      0 1 2).1).sessions "bad" = none ∧
    (getOrCreateSession (SessionManager.mk0 10) "bad" envOkDemo 3 4 5).2 =
      .ok { id := "bad", environment := envOkDemo, createdAt := 4,
            lastAccessedAt := 5 } ∧
    mapGet ((getOrCreateSession (SessionManager.mk0 10) "bad" envOkDemo
      3 4 5).1).sessions "bad" =
      some { id := "bad", environment := envOkDemo, createdAt := 4,
             lastAccessedAt := 5 } :=
  c4_creation_failure_surfaced (SessionManager.mk0 10) "bad" envInitFailDemo
    envOkDemo 0 1 2 3 4 5 (by decide) (by decide) (by decide)

theorem getSession_hit (m : SessionManager) (sid : String) (s : Session)
    (now : Nat) (h : mapGet m.sessions sid = some s) :
    getSession m sid now =
      ({ m with sessions := mapSet m.sessions sid { s with lastAccessedAt := now } },
        some { s with lastAccessedAt := now }) := by
  simp [getSession, h]

/-- Claim C6: a successful lookup (`getSession` on a present id, and the hit
path of `getOrCreateSession`, which performs no creation) stores and returns
the session with `lastAccessedAt` set to the current reading, leaves
`createdAt` unchanged, and across two successive lookups with non-decreasing
clock readings the stored timestamp moves from `s.lastAccessedAt` to `now1`
to `now2`, never decreasing. -/
theorem c6_last_accessed_monotone (m : SessionManager) (sid : String)
    (s : Session) (env : PyEnv) (now1 now2 t1 t2 : Nat)
    (h : mapGet m.sessions sid = some s)
    (hc1 : s.lastAccessedAt ≤ now1) (hc2 : now1 ≤ now2) :
    (getSession m sid now1).2 = some { s with lastAccessedAt := now1 } ∧
    mapGet (getSession m sid now1).1.sessions sid =
      some { s with lastAccessedAt := now1 } ∧
    (getOrCreateSession m sid env now1 t1 t2).2 =
      .ok { s with lastAccessedAt := now1 } ∧
    (getOrCreateSession m sid env now1 t1 t2).1 = (getSession m sid now1).1 ∧
    (getSession (getSession m sid now1).1 sid now2).2 =
      some { s with lastAccessedAt := now2 } ∧
    ({ s with lastAccessedAt := now1 }).createdAt = s.createdAt ∧
    s.lastAccessedAt ≤ now1 ∧ now1 ≤ now2 := by
  have hg1 : getSession m sid now1 =
      ({ m with sessions := mapSet m.sessions sid { s with lastAccessedAt := now1 } },
        some { s with lastAccessedAt := now1 }) := by
    simp [getSession, h]
  have h1 : mapGet (getSession m sid now1).1.sessions sid =
      some { s with lastAccessedAt := now1 } := by
    rw [hg1]
    exact mapGet_mapSet_self m.sessions sid _
  have hg2 : getSession (getSession m sid now1).1 sid now2 =
      ({ (getSession m sid now1).1 with sessions := mapSet (getSession m sid now1).1.sessions sid { s with lastAccessedAt := now2 } },
        some { s with lastAccessedAt := now2 }) :=
    getSession_hit (getSession m sid now1).1 sid
      { s with lastAccessedAt := now1 } now2 h1
  refine ⟨by rw [hg1], h1, by simp [getOrCreateSession, hg1],
    by simp [getOrCreateSession, hg1], by rw [hg2], rfl, hc1, hc2⟩

/-- Claim C6 (witness): two successive lookups of "s1" at readings 3 then 8. -/
theorem c6_last_accessed_monotone_witness :
    (getSession mgrOkS1 "s1" 3).2 = some { sessOk1 with lastAccessedAt := 3 } ∧
    mapGet (getSession mgrOkS1 "s1" 3).1.sessions "s1" =
      some { sessOk1 with lastAccessedAt := 3 } ∧
    (getOrCreateSession mgrOkS1 "s1" envOkDemo 3 10 11).2 =
      .ok { sessOk1 with lastAccessedAt := 3 } ∧
    (getOrCreateSession mgrOkS1 "s1" envOkDemo 3 10 11).1 =
      (getSession mgrOkS1 "s1" 3).1 ∧
    (getSession (getSession mgrOkS1 "s1" 3).1 "s1" 8).2 =
      some { sessOk1 with lastAccessedAt := 8 } ∧
    ({ sessOk1 with lastAccessedAt := 3 }).createdAt = sessOk1.createdAt ∧
    sessOk1.lastAccessedAt ≤ 3 ∧ (3 : Nat) ≤ 8 :=
  c6_last_accessed_monotone mgrOkS1 "s1" sessOk1 envOkDemo 3 8 10 11
    (by decide) (by decide) (by decide)

/-- Claim C8: a teardown failure is never escalated and never blocks the
removal transition — for a present id, `removeSession` deletes the entry and
returns true with no assumption on whether `terminate` or `cleanup` succeed;
and both the registry left by a removal loop and the count returned by a
sweep are determined by the expiry predicate alone, independent of any
teardown outcome, so one session's failure cannot prevent the remaining
selected sessions from being processed. -/
theorem c8_teardown_never_blocks (m : SessionManager) (sid : String)
    (s : Session) (h : mapGet m.sessions sid = some s) :
    (removeSession m sid).2.1 = true ∧
    (removeSession m sid).1 = { m with sessions := mapDelete m.sessions sid } ∧
    (∀ ids, (removeAll m ids).1 =
      { m with sessions := m.sessions.filter (fun p => decide (p.1 ∉ ids)) }) ∧
    (∀ now, (cleanupExpiredSessions m now).2.1 =
      (m.sessions.filter
        (fun p => isSessionExpired m.sessionTimeout now p.2)).length) := by
  refine ⟨by simp [removeSession, h], by simp [removeSession, h],
    fun ids => removeAll_state ids m, fun now => ?_⟩
  simp [cleanupExpiredSessions]

/-- Claim C8 (witness): removing "s2", whose environment fails both
`terminate` and `cleanup`, still succeeds and still sweeps cleanly. -/
theorem c8_teardown_never_blocks_witness :
    (removeSession mgrAllFail "s2").2.1 = true ∧
    (removeSession mgrAllFail "s2").1 =
      { mgrAllFail with sessions := mapDelete mgrAllFail.sessions "s2" } ∧
    (∀ ids, (removeAll mgrAllFail ids).1 =
      { mgrAllFail with sessions :=
          mgrAllFail.sessions.filter (fun p => decide (p.1 ∉ ids)) }) ∧
    (∀ now, (cleanupExpiredSessions mgrAllFail now).2.1 =
      (mgrAllFail.sessions.filter
        (fun p => isSessionExpired mgrAllFail.sessionTimeout now p.2)).length) :=
  c8_teardown_never_blocks mgrAllFail "s2" sessAllFail (by decide)

/-- Claim C5: a sweep pass (`cleanupExpiredSessions`, also reachable through
`manualCleanup` and a firing of the interval timer) removes exactly the
sessions whose idle duration `now - lastAccessedAt` is ≥ the configured
timeout, retains every other session unchanged, and returns the number of
sessions removed. -/
theorem c5_sweep_exact (m : SessionManager) (now : Nat)
    (hnd : (m.sessions.map Prod.fst).Nodup) :
    (cleanupExpiredSessions m now).1.sessions =
      m.sessions.filter
        (fun p => !(isSessionExpired m.sessionTimeout now p.2)) ∧
    (cleanupExpiredSessions m now).2.1 =
      (m.sessions.filter
        (fun p => isSessionExpired m.sessionTimeout now p.2)).length ∧
    (∀ sid s, mapGet m.sessions sid = some s →
      isSessionExpired m.sessionTimeout now s = true →
      mapGet (cleanupExpiredSessions m now).1.sessions sid = none) ∧
    (∀ sid s, mapGet m.sessions sid = some s →
      isSessionExpired m.sessionTimeout now s = false →
      mapGet (cleanupExpiredSessions m now).1.sessions sid = some s) ∧
    manualCleanup m now = cleanupExpiredSessions m now ∧
    (m.cleanupIntervalActive = true →
      timerTick m now = cleanupExpiredSessions m now) := by
  have h1 : (cleanupExpiredSessions m now).1 =
      (removeAll m
        ((m.sessions.filter
          (fun p => isSessionExpired m.sessionTimeout now p.2)).map
          (fun p => p.1))).1 := rfl
  have h2 : (cleanupExpiredSessions m now).2.1 =
      ((m.sessions.filter
        (fun p => isSessionExpired m.sessionTimeout now p.2)).map
        (fun p => p.1)).length := rfl
  have hiff : ∀ p ∈ m.sessions,
      (p.1 ∈ (m.sessions.filter
        (fun p => isSessionExpired m.sessionTimeout now p.2)).map
        (fun p => p.1) ↔
        isSessionExpired m.sessionTimeout now p.2 = true) := by
    intro p hp
    constructor
    · intro hmem
      rcases List.mem_map.mp hmem with ⟨r, hr, hr1⟩
      have hrm := (List.mem_filter.mp hr).1
      have hrq := (List.mem_filter.mp hr).2
      have hrp : r = p := List.inj_on_of_nodup_map hnd hrm hp hr1
      rwa [hrp] at hrq
    · intro hq
      exact List.mem_map.mpr ⟨p, List.mem_filter.mpr ⟨hp, hq⟩, rfl⟩
  have hstate : (cleanupExpiredSessions m now).1 =
      { m with sessions := m.sessions.filter (fun p => !(isSessionExpired m.sessionTimeout now p.2)) } := by
    rw [h1, removeAll_state]
    congr 1
    apply List.filter_congr
    intro p hp
    rcases Bool.eq_false_or_eq_true
        (isSessionExpired m.sessionTimeout now p.2) with hqp | hqp
    · have hin := (hiff p hp).mpr hqp
      simp [hin, hqp]
    · have hni : p.1 ∉ (m.sessions.filter
          (fun p => isSessionExpired m.sessionTimeout now p.2)).map
          (fun p => p.1) := by
        intro hc
        have htrue := (hiff p hp).mp hc
        rw [hqp] at htrue
        simp at htrue
      simp [hni, hqp]
  refine ⟨by rw [hstate], by rw [h2, List.length_map], ?_, ?_, rfl, ?_⟩
  · intro sid s hs hexp
    rw [hstate]
    have hf := mapGet_filter m.sessions sid s
      (fun p => !(isSessionExpired m.sessionTimeout now p.2)) hnd hs
    rw [hf]
    simp [hexp]
  · intro sid s hs hexp
    rw [hstate]
    have hf := mapGet_filter m.sessions sid s
      (fun p => !(isSessionExpired m.sessionTimeout now p.2)) hnd hs
    rw [hf]
    simp [hexp]
  · intro hact
    simp [timerTick, hact]

/-- Claim C5 (witness): a sweep over `mgrSweepDemo` (timeout 60000ms, clock
70000) removes the session idle for 70000ms and retains the one idle for
5000ms, returning count 1. -/
theorem c5_sweep_exact_witness :
    (cleanupExpiredSessions mgrSweepDemo 70000).1.sessions =
      mgrSweepDemo.sessions.filter
        (fun p => !(isSessionExpired mgrSweepDemo.sessionTimeout 70000 p.2)) ∧
    (cleanupExpiredSessions mgrSweepDemo 70000).2.1 = 1 := by
  have h := c5_sweep_exact mgrSweepDemo 70000 (by decide)
  refine ⟨h.1, ?_⟩
  rw [h.2.1]
  decide

theorem getSession_hit_sessions (m : SessionManager) (sid : String)
    (s : Session) (now : Nat) (h : mapGet m.sessions sid = some s) :
    (getSession m sid now).1.sessions =
      mapSet m.sessions sid { s with lastAccessedAt := now } := by
  rw [getSession_hit m sid s now h]

/-- Claim C7 (counterexample): shutting down `mgrTermFail` — a single
session whose environment's `terminate` throws — does leave the count at 0
with the timer stopped, but `cleanup` is never attempted on that session,
refuting the claim's "terminate and release/cleanup attempted on each". -/
theorem c7_counterexample_cleanup_not_attempted :
    getActiveSessionCount (shutdown mgrTermFail).1 = 0 ∧
    (shutdown mgrTermFail).1.cleanupIntervalActive = false ∧
    TeardownEvent.terminateCall "s1" ∈ (shutdown mgrTermFail).2 ∧
    TeardownEvent.cleanupCall "s1" ∉ (shutdown mgrTermFail).2 := by
  exact ⟨by decide, by decide, by decide, by decide⟩

/-- Claim C7 (amended): after `shutdown()` the active session count is 0,
the sweeper timer is stopped and no longer fires (a tick is a no-op), and
for every session present at shutdown `terminate` was attempted; `cleanup`
was attempted on those whose `terminate` succeeded (a `terminate` failure
skips the `cleanup` call, cf. C2). -/
theorem c7_shutdown_amended (m : SessionManager)
    (hnd : (m.sessions.map Prod.fst).Nodup) :
    getActiveSessionCount (shutdown m).1 = 0 ∧
    (shutdown m).1.cleanupIntervalActive = false ∧
    (∀ now, timerTick (shutdown m).1 now = ((shutdown m).1, 0, [])) ∧
    (shutdown m).2 = teardownEventsAll m.sessions ∧
    (∀ p ∈ m.sessions,
      TeardownEvent.terminateCall p.1 ∈ (shutdown m).2) ∧
    (∀ p ∈ m.sessions, p.2.environment.terminateOk = true →
      TeardownEvent.cleanupCall p.1 ∈ (shutdown m).2) := by
  have hsh : shutdown m =
      removeAll (stopCleanupInterval m) (m.sessions.map Prod.fst) := rfl
  have hst := removeAll_state (m.sessions.map Prod.fst) (stopCleanupInterval m)
  have hnil : m.sessions.filter
      (fun p => decide (p.1 ∉ m.sessions.map Prod.fst)) = [] := by
    apply List.filter_eq_nil_iff.mpr
    intro p hp
    simp [List.mem_map_of_mem Prod.fst hp]
  have hsess : (shutdown m).1.sessions = [] := by
    rw [hsh, hst]
    exact hnil
  have hact : (shutdown m).1.cleanupIntervalActive = false := by
    rw [hsh, hst]
    exact rfl
  have hevents : (shutdown m).2 = teardownEventsAll m.sessions := by
    rw [hsh]
    exact removeAll_keys_events m.sessions m.sessionTimeout false hnd
  refine ⟨?_, hact, ?_, hevents, ?_, ?_⟩
  · simp [getActiveSessionCount, hsess]
  · intro now
    simp [timerTick, hact]
  · intro p hp
    rw [hevents]
    exact mem_teardownEventsAll_terminate m.sessions p hp
  · intro p hp hok
    rw [hevents]
    exact mem_teardownEventsAll_cleanup m.sessions p hp hok

/-- Claim C7 (witness): the amended statement evaluated on `mgrSweepDemo`
(two sessions with fully working environments). -/
theorem c7_shutdown_amended_witness :
    (mgrSweepDemo.sessions.map Prod.fst).Nodup ∧
    (getActiveSessionCount (shutdown mgrSweepDemo).1 = 0 ∧
    (shutdown mgrSweepDemo).1.cleanupIntervalActive = false ∧
    (∀ now, timerTick (shutdown mgrSweepDemo).1 now =
      ((shutdown mgrSweepDemo).1, 0, [])) ∧
    (shutdown mgrSweepDemo).2 = teardownEventsAll mgrSweepDemo.sessions ∧
    (∀ p ∈ mgrSweepDemo.sessions,
      TeardownEvent.terminateCall p.1 ∈ (shutdown mgrSweepDemo).2) ∧
    (∀ p ∈ mgrSweepDemo.sessions, p.2.environment.terminateOk = true →
      TeardownEvent.cleanupCall p.1 ∈ (shutdown mgrSweepDemo).2)) :=
  ⟨by decide, c7_shutdown_amended mgrSweepDemo (by decide)⟩

/-- Claim C10 (counterexample): `createSession` reads `Date.now()` twice —
once for `createdAt`, once for `lastAccessedAt` — so under a non-decreasing
clock that advances by 1ms between the two reads, the created session has
`createdAt = 0` and `lastAccessedAt = 1`: creation does not establish both
fields "equal to the same instant". -/
theorem c10_counterexample_two_clock_reads :
    exceptCreatedAt c10CreateRun.2 = some 0 ∧
    exceptLastAccessedAt c10CreateRun.2 = some 1 ∧
    exceptCreatedAt c10CreateRun.2 ≠ exceptLastAccessedAt c10CreateRun.2 := by
  exact ⟨rfl, rfl, by decide⟩

/-- Claim C10 (amended): under a non-decreasing clock (creation's two reads
satisfy `t1 ≤ t2`, and no stored timestamp exceeds the current reading),
every stored session satisfies `createdAt ≤ lastAccessedAt`, and the
invariant is preserved by creation, lookup, removal, sweep and shutdown;
lookups never modify `createdAt`. -/
theorem c10_created_le_accessed_invariant (m : SessionManager) (sid : String)
    (env : PyEnv) (now t1 t2 : Nat)
    (hreg : registryOk m.sessions) (h12 : t1 ≤ t2)
    (hclk : ∀ p ∈ m.sessions, p.2.lastAccessedAt ≤ now) :
    registryOk (createSession m sid env t1 t2).1.sessions ∧
    registryOk (getSession m sid now).1.sessions ∧
    (∀ sid2, (mapGet (getSession m sid now).1.sessions sid2).map
        Session.createdAt =
      (mapGet m.sessions sid2).map Session.createdAt) ∧
    registryOk (removeSession m sid).1.sessions ∧
    registryOk (cleanupExpiredSessions m now).1.sessions ∧
    registryOk (shutdown m).1.sessions := by
  have hcreate : registryOk (createSession m sid env t1 t2).1.sessions := by
    by_cases hhas : mapHas m.sessions sid
    · simp only [createSession, if_pos hhas]
      exact hreg
    · by_cases hio : env.initOk
      · simp only [createSession, if_neg hhas, if_pos hio]
        intro p hp
        rcases mem_mapSet _ _ _ _ hp with hm | hm
        · exact hreg p hm
        · rw [hm]
          exact h12
      · simp only [createSession, if_neg hhas, if_neg hio]
        exact hreg
  have hget : registryOk (getSession m sid now).1.sessions := by
    cases hg : mapGet m.sessions sid with
    | none => simp only [getSession, hg]; exact hreg
    | some s =>
        rw [getSession_hit_sessions m sid s now hg]
        intro p hp
        rcases mem_mapSet _ _ _ _ hp with hm | hm
        · exact hreg p hm
        · rw [hm]
          have hmem := mapGet_mem m.sessions sid s hg
          exact le_trans (hreg (sid, s) hmem) (hclk (sid, s) hmem)
  have hcreated : ∀ sid2,
      (mapGet (getSession m sid now).1.sessions sid2).map Session.createdAt =
      (mapGet m.sessions sid2).map Session.createdAt := by
    intro sid2
    cases hg : mapGet m.sessions sid with
    | none => simp only [getSession, hg]
    | some s =>
        rw [getSession_hit_sessions m sid s now hg]
        by_cases h2 : sid2 = sid
        · rw [h2, mapGet_mapSet_self, hg]
          rfl
        · rw [mapGet_mapSet_ne m.sessions sid sid2 _ h2]
  have hremove : registryOk (removeSession m sid).1.sessions := by
    cases hg : mapGet m.sessions sid with
    | none => simp only [removeSession, hg]; exact hreg
    | some s =>
        simp only [removeSession, hg, mapDelete_eq_filter]
        exact registryOk_filter _ _ hreg
  have hsweep : registryOk (cleanupExpiredSessions m now).1.sessions := by
    have h1 : (cleanupExpiredSessions m now).1 =
        (removeAll m
          ((m.sessions.filter
            (fun p => isSessionExpired m.sessionTimeout now p.2)).map
            (fun p => p.1))).1 := rfl
    rw [h1, removeAll_state]
    exact registryOk_filter _ _ hreg
  have hshut : registryOk (shutdown m).1.sessions := by
    have hsh : shutdown m =
        removeAll (stopCleanupInterval m) (m.sessions.map Prod.fst) := rfl
    rw [hsh, removeAll_state]
    exact registryOk_filter _ _ hreg
  exact ⟨hcreate, hget, hcreated, hremove, hsweep, hshut⟩

/-- Claim C10 (witness): the amended statement evaluated on `mgrOkS1` with
creation reads 1 ≤ 2 and lookup reading 5. -/
theorem c10_created_le_accessed_invariant_witness :
    registryOk mgrOkS1.sessions ∧ (1 : Nat) ≤ 2 ∧
    (∀ p ∈ mgrOkS1.sessions, p.2.lastAccessedAt ≤ 5) ∧
    (registryOk (createSession mgrOkS1 "s9" envOkDemo 1 2).1.sessions ∧
    registryOk (getSession mgrOkS1 "s9" 5).1.sessions ∧
    (∀ sid2, (mapGet (getSession mgrOkS1 "s9" 5).1.sessions sid2).map
        Session.createdAt =
      (mapGet mgrOkS1.sessions sid2).map Session.createdAt) ∧
    registryOk (removeSession mgrOkS1 "s9").1.sessions ∧
    registryOk (cleanupExpiredSessions mgrOkS1 5).1.sessions ∧
    registryOk (shutdown mgrOkS1).1.sessions) :=
  ⟨by decide, by decide, by decide,
    c10_created_le_accessed_invariant mgrOkS1 "s9" envOkDemo 5 1 2
      (by decide) (by decide) (by decide)⟩
